import Mathlib

/-!
Formal model of the Call-Analysis processing pipeline
(src/Transcription.py and src/llm.py), as a shallow embedding.

Conventions of the embedding:
* Plain-text log files are lists of lines (without the trailing newline).
* MongoDB collections are lists of documents; `update_one` with
  `upsert=False` updates the first matching document or reports no match.
* Timestamps (`datetime.now().isoformat()`, `strftime`) and Mongo object
  ids are opaque strings passed in as parameters.
* The external transcription service (`transcribe_audio`, Transcription.py
  lines 131-145) is an oracle `Nat → Option String` giving the result of
  the n-th call for a file; `none` covers both an exception caught inside
  `transcribe_audio` and an empty transcript (line 142 maps empty text to
  `None`).  The external embedding model (`SentenceTransformer.encode`) is
  an opaque function `String → List Int`.
* Python truthiness of an `Optional[str]` is `truthy` below.
* Environment faults (I/O or database exceptions escaping into the broad
  `except` handlers) are not modelled; the control flow modelled is the
  exception-free flow of the source.
-/

/-- Python `str.startswith` on explicit character lists. -/
def startswith_chars : List Char → List Char → Bool
  | [], _ => true
  | _ :: _, [] => false
  | c :: cs, d :: ds => (c == d) && startswith_chars cs ds

/-- Python `line.startswith(pre)`. -/
def startswith (pre line : String) : Bool :=
  startswith_chars pre.data line.data

/-- Transcription.py lines 120-128, `is_already_processed`: a file counts as
processed when some line of the log starts with `filename + ","`.  A missing
log file is the empty list of lines. -/
def is_already_processed (filename : String) (log : List String) : Bool :=
  log.any (fun line => startswith (filename ++ ",") line)

/-- One line of `transcription_log.txt` as written at Transcription.py lines
238, 245, 252, 259 and 264: `f"{base_filename},{timestamp},{outcome}"`. -/
def log_entry (base ts outcome : String) : String :=
  base ++ "," ++ ts ++ "," ++ outcome

/-- ASCII decimal digit, the relevant case of Python's regex `\d`. -/
def isDig (c : Char) : Bool := c.isDigit

/-- Match exactly `n` digits at the head of the input, returning them and
the rest (the fixed-width pieces `\d{4}` and `\d{10}` of the regexes). -/
def takeDigits : Nat → List Char → Option (List Char × List Char)
  | 0, cs => some ([], cs)
  | _ + 1, [] => none
  | n + 1, c :: cs =>
    if isDig c then (takeDigits n cs).map (fun p => (c :: p.1, p.2))
    else none

/-- Match one literal character at the head of the input. -/
def matchChar (c : Char) : List Char → Option (List Char)
  | [] => none
  | d :: rest => if d == c then some rest else none

/-- Greedy `\d{1,2}` with regex backtracking, in continuation style: try two
digits first and fall back to one digit if the continuation fails. -/
def d12 (cs : List Char) (k : List Char → List Char → Option α) : Option α :=
  match takeDigits 2 cs with
  | some p =>
    match k p.1 p.2 with
    | some v => some v
    | none =>
      match takeDigits 1 cs with
      | some q => k q.1 q.2
      | none => none
  | none =>
    match takeDigits 1 cs with
    | some q => k q.1 q.2
    | none => none

/-- Attempt of the pattern `_(\d{10})_` (Transcription.py line 95) at one
start position, returning the captured ten digits. -/
def phone_match_at (cs : List Char) : Option (List Char) :=
  match cs with
  | [] => none
  | c :: rest =>
    if c == '_' then
      match takeDigits 10 rest with
      | some p =>
        match p.2 with
        | d :: _ => if d == '_' then some p.1 else none
        | [] => none
      | none => none
    else none

/-- The `re.search` scan for `_(\d{10})_`: leftmost successful start position. -/
def phone_scan : List Char → Option (List Char)
  | [] => none
  | c :: rest =>
    match phone_match_at (c :: rest) with
    | some ds => some ds
    | none => phone_scan rest

/-- Transcription.py lines 93-96, `extract_phone_number`. -/
def extract_phone_number (filename : String) : Option String :=
  (phone_scan filename.data).map String.mk

/-- Attempt of `_\d{4}-\d{1,2}-\d{1,2}-(\d{1,2})-(\d{1,2})-\d{1,2}_`
(Transcription.py line 100) at one start position, returning the two
captured groups (hour digits, minute digits). -/
def time_match_at (cs : List Char) : Option (List Char × List Char) :=
  match cs with
  | [] => none
  | c :: rest =>
    if c == '_' then
      match takeDigits 4 rest with
      | none => none
      | some p1 =>
        match matchChar '-' p1.2 with
        | none => none
        | some r2 =>
          d12 r2 fun _ r3 =>
          match matchChar '-' r3 with
          | none => none
          | some r4 =>
            d12 r4 fun _ r5 =>
            match matchChar '-' r5 with
            | none => none
            | some r6 =>
              d12 r6 fun hh r7 =>
              match matchChar '-' r7 with
              | none => none
              | some r8 =>
                d12 r8 fun mm r9 =>
                match matchChar '-' r9 with
                | none => none
                | some r10 =>
                  d12 r10 fun _ r11 =>
                  match matchChar '_' r11 with
                  | none => none
                  | some _ => some (hh, mm)
    else none

/-- The `re.search` scan for the date-time pattern. -/
def time_scan : List Char → Option (List Char × List Char)
  | [] => none
  | c :: rest =>
    match time_match_at (c :: rest) with
    | some r => some r
    | none => time_scan rest

/-- Value of a digit string, Python `int(...)` (drops leading zeros). -/
def int_of_digits (cs : List Char) : Nat :=
  cs.foldl (fun a c => a * 10 + (c.toNat - 48)) 0

/-- Transcription.py lines 98-105, `extract_time_from_filename`:
`f"{int(hour)}:{minute}"` built from the two captured groups. -/
def extract_time_from_filename (filename : String) : Option String :=
  match time_scan filename.data with
  | some p => some (toString (int_of_digits p.1) ++ ":" ++ String.mk p.2)
  | none => none

/-- Whitespace splitter, accumulating the current word in reverse. -/
def split_ws_aux : List Char → List Char → List String
  | acc, [] => if acc.isEmpty then [] else [String.mk acc.reverse]
  | acc, c :: rest =>
    if c.isWhitespace then
      if acc.isEmpty then split_ws_aux [] rest
      else String.mk acc.reverse :: split_ws_aux [] rest
    else split_ws_aux (c :: acc) rest

/-- Python `str.strip().split()`: split on whitespace runs, dropping
empties (so the leading `strip` is absorbed). -/
def py_split_ws (s : String) : List String :=
  split_ws_aux [] s.data

/-- Transcription.py lines 107-118, `convert_time_to_mongo_format`.  The
`raise`/`except` pair that yields `None` is the final `none` case. -/
def convert_time_to_mongo_format (time_str : String) : Option String :=
  match py_split_ws time_str with
  | [a, b] => some (a ++ " " ++ b)
  | [a] => if a.data.contains ':' then some a else none
  | _ => none

/-- A document of the `phone_records` collection, restricted to the fields
the modelled code reads or writes: `filename`, `phone_number`, `call_time`
(query keys at Transcription.py lines 155 and 171) and `transcription`
(the `$set` payload). -/
structure Record where
  filename : String
  phone_number : String
  call_time : String
  transcription : Option String
deriving DecidableEq

/-- Mongo `update_one(query, set transcription, upsert=False)`: update the
first matching document, `none` when `matched_count == 0`. -/
def update_one (p : Record → Bool) (text : String) : List Record → Option (List Record)
  | [] => none
  | r :: rs =>
    if p r then some (⟨r.filename, r.phone_number, r.call_time, some text⟩ :: rs)
    else (update_one p text rs).map (fun rs2 => r :: rs2)

/-- Transcription.py lines 147-184, `store_transcription`: match by
`filename` first, then fall back to `(phone_number, call_time)`; both
updates have `upsert=False`; no match at all returns `False` with the
collection untouched. -/
def store_transcription (coll : List Record) (filename transcription_text : String) :
    Bool × List Record :=
  match update_one (fun r => r.filename == filename) transcription_text coll with
  | some coll2 => (true, coll2)
  | none =>
    let phone_number := extract_phone_number filename
    let mongo_time := (extract_time_from_filename filename).bind convert_time_to_mongo_format
    match phone_number, mongo_time with
    | some ph, some t =>
      match update_one (fun r => r.phone_number == ph && r.call_time == t)
          transcription_text coll with
      | some coll2 => (true, coll2)
      | none => (false, coll)
    | _, _ => (false, coll)

/-- A document of the `Embeddings` collection (Transcription.py lines
197-201): `filename` is the only queried key; vector and date are carried
but never read back. -/
structure EmbedDoc where
  filename : String
  embedding : List Int
  date_processed : String
deriving DecidableEq

/-- The embedding collection together with `embeddings_log.txt`. -/
structure EmbedState where
  embeds : List EmbedDoc
  embedLog : List String
deriving DecidableEq

/-- Transcription.py lines 186-210, `generate_embeddings`: skip (returning
`True`) when a document with this `filename` already exists; otherwise
insert one document and append one line to the embeddings log.  `insert_one`
always yields a truthy `inserted_id`, so the success branch is taken. -/
def generate_embeddings (encode : String → List Int) (st : EmbedState)
    (filename text ts oid : String) : Bool × EmbedState :=
  match st.embeds.find? (fun d => d.filename == filename) with
  | some _ => (true, st)
  | none =>
    (true,
     ⟨st.embeds ++ [⟨filename, encode text, ts⟩],
      st.embedLog ++ [filename ++ "," ++ oid ++ "," ++ ts]⟩)

/-- Python `os.path.splitext` for a bare file name (no path separators,
which is all `os.listdir` produces): split at the last dot unless every
character before it is a dot. -/
def splitext (s : String) : String × String :=
  let rev := s.data.reverse
  let extRev := rev.takeWhile (fun c => c ≠ '.')
  if extRev.length = rev.length then (s, "")
  else
    let baseRev := rev.drop (extRev.length + 1)
    if baseRev.all (fun c => c = '.') then (s, "")
    else (String.mk baseRev.reverse, String.mk ('.' :: extRev.reverse))

/-- Observable side effects of one run of `process_single_file` (and of the
per-file step of `main`), in order of occurrence: a call to the
transcription service, a call to `store_transcription`, a call to
`generate_embeddings`, an append to `transcription_log.txt`, an
`os.remove` of the audio file, and the `llm.py` analysis launch of `main`
line 323. -/
inductive Event where
  | transcribeCall : Event
  | storeCall : Event
  | embedCall : Event
  | ledgerAppend : String → Event
  | fileRemove : String → Event
  | analyzeCall : Event
deriving DecidableEq

/-- Python truthiness of `Optional[str]`. -/
def truthy : Option String → Bool
  | none => false
  | some s => s != ""

/-- Transcription.py line 224: `max_attempts = 2`. -/
def max_attempts : Nat := 2

/-- The retry loop of Transcription.py lines 227-240, iterating over
`range(max_attempts)` (its `except` arm is dead in the exception-free
flow, since `transcribe_audio` catches its own exceptions): call the
oracle until a truthy transcript or the attempts run out; return the
final value of `transcription` and the number of calls made.  When every
attempt fails the loop leaves a falsy `transcription`, rendered `none`. -/
def attempt_loop (oracle : Nat → Option String) : List Nat → Option String × Nat
  | [] => (none, 0)
  | attempt :: rest =>
    let t := oracle attempt
    if truthy t then (t, 1)
    else ((attempt_loop oracle rest).1, (attempt_loop oracle rest).2 + 1)

/-- The whole mutable state `process_single_file` touches: the
transcription log, the `phone_records` collection, the `Embeddings`
collection with its log, and the set of files in the data folder. -/
structure PipeState where
  translog : List String
  records : List Record
  embeds : List EmbedDoc
  embedLog : List String
  dataFiles : List String
deriving DecidableEq

/-- Transcription.py lines 212-277, `process_single_file`, returning the
result, the final state and the ordered list of observable events.  `ts`
and `oid` stand for the timestamp and inserted id of this run. -/
def process_single_file (encode : String → List Int) (oracle : Nat → Option String)
    (ts oid : String) (st : PipeState) (audio_file : String) :
    Bool × PipeState × List Event :=
  let base_filename := (splitext audio_file).1
  if is_already_processed base_filename st.translog then
    (false, st, [])
  else
    let loopRes := attempt_loop oracle (List.range max_attempts)
    let transcription := loopRes.1
    let tevs := List.replicate loopRes.2 Event.transcribeCall
    if truthy transcription then
      let text := transcription.getD ""
      let sres := store_transcription st.records base_filename text
      if sres.1 then
        let gres := generate_embeddings encode ⟨st.embeds, st.embedLog⟩ base_filename text ts oid
        if gres.1 then
          let line := log_entry base_filename ts "success"
          (true,
           ⟨st.translog ++ [line], sres.2, gres.2.embeds, gres.2.embedLog,
            st.dataFiles.filter (fun f => f != audio_file)⟩,
           tevs ++ [Event.storeCall, Event.embedCall, Event.ledgerAppend line,
                    Event.fileRemove audio_file])
        else
          let line := log_entry base_filename ts "failed"
          (false,
           ⟨st.translog ++ [line], sres.2, gres.2.embeds, gres.2.embedLog, st.dataFiles⟩,
           tevs ++ [Event.storeCall, Event.embedCall, Event.ledgerAppend line])
      else
        let line := log_entry base_filename ts "failed"
        (false,
         ⟨st.translog ++ [line], sres.2, st.embeds, st.embedLog, st.dataFiles⟩,
         tevs ++ [Event.storeCall, Event.ledgerAppend line])
    else
      let line := log_entry base_filename ts "failed"
      (false,
       ⟨st.translog ++ [line], st.records, st.embeds, st.embedLog, st.dataFiles⟩,
       tevs ++ [Event.ledgerAppend line])

/-- Transcription.py lines 316-325, the per-file body of `main`: run
`process_single_file`; on success launch the `llm.py` analysis
(`subprocess.run` at line 323), otherwise skip it. -/
def main_step (encode : String → List Int) (oracle : Nat → Option String)
    (ts oid : String) (st : PipeState) (audio_file : String) :
    Bool × PipeState × List Event :=
  let r := process_single_file encode oracle ts oid st audio_file
  if r.1 then (r.1, r.2.1, r.2.2 ++ [Event.analyzeCall]) else r

/-- The `{` character, written by code point. -/
def lbrace : Char := Char.ofNat 123

/-- The `}` character, written by code point. -/
def rbrace : Char := Char.ofNat 125

/-- Membership of a character in a character list. -/
def contains_char (c : Char) : List Char → Bool
  | [] => false
  | x :: xs => (x == c) || contains_char c xs

/-- Prefix of `cs` up to and including the last occurrence of `c`
(meaningful when `cs` contains `c`). -/
def up_to_last (c : Char) (cs : List Char) : List Char :=
  (cs.reverse.dropWhile (fun x => !(x == c))).reverse

/-- Attempt of the greedy pattern of llm.py line 101 (an opening brace,
then `.*` with `re.DOTALL`, then a closing brace) at one start position:
it succeeds when the head is an opening brace with some closing brace
later, and greediness makes it extend to the last closing brace. -/
def brace_match_at (cs : List Char) : Option (List Char) :=
  match cs with
  | [] => none
  | c :: rest =>
    if c = lbrace then
      if contains_char rbrace rest then some (lbrace :: up_to_last rbrace rest)
      else none
    else none

/-- The `re.search` scan for the brace pattern: leftmost successful start. -/
def brace_search : List Char → Option (List Char)
  | [] => none
  | c :: rest =>
    match brace_match_at (c :: rest) with
    | some m => some m
    | none => brace_search rest

/-- Direct characterisation of the same span: from the first opening brace
(provided a closing brace follows it) to the last closing brace. -/
def brace_span_fl (cs : List Char) : Option (List Char) :=
  match cs.dropWhile (fun c => !(c == lbrace)) with
  | [] => none
  | c :: rest =>
    if contains_char rbrace rest then some (c :: up_to_last rbrace rest) else none

/-- JSON values as produced by `json.loads` (floats are out of scope; the
inputs considered use only integers, plain strings, arrays and objects). -/
inductive Json where
  | null : Json
  | bool : Bool → Json
  | num : Int → Json
  | str : String → Json
  | arr : List Json → Json
  | obj : List (String × Json) → Json

/-- JSON insignificant whitespace. -/
def skip_ws (cs : List Char) : List Char :=
  cs.dropWhile (fun c => (c == ' ') || (c == '\n') || (c == '\t') || (c == '\r'))

/-- Body of a JSON string after the opening quote (escape sequences are out
of scope; the inputs considered contain none). -/
def parse_string_body : List Char → Option (String × List Char)
  | [] => none
  | c :: rest =>
    if c = '"' then some ("", rest)
    else (parse_string_body rest).map (fun p => (String.mk (c :: p.1.data), p.2))

/-- Nonempty digit run parsed as a number. -/
def parse_nat_digits (cs : List Char) : Option (Nat × List Char) :=
  let ds := cs.takeWhile isDig
  if ds.isEmpty then none else some (int_of_digits ds, cs.drop ds.length)

/-- JSON integer, with optional leading minus sign. -/
def parse_int (cs : List Char) : Option (Int × List Char) :=
  match cs with
  | '-' :: rest => (parse_nat_digits rest).map (fun p => (-(p.1 : Int), p.2))
  | _ => (parse_nat_digits cs).map (fun p => ((p.1 : Int), p.2))

/-- Literal keyword match. -/
def parse_lit (lit : List Char) (cs : List Char) : Option (List Char) :=
  if lit.isPrefixOf cs then some (cs.drop lit.length) else none

mutual

/-- Recursive-descent model of `json.loads` on one value, fuelled. -/
def parse_val : Nat → List Char → Option (Json × List Char)
  | 0, _ => none
  | fuel + 1, cs0 =>
    match skip_ws cs0 with
    | [] => none
    | c :: rest =>
      if c = '"' then (parse_string_body rest).map (fun p => (Json.str p.1, p.2))
      else if c = lbrace then
        match skip_ws rest with
        | [] => none
        | d :: rest2 =>
          if d = rbrace then some (Json.obj [], rest2)
          else (parse_members fuel (d :: rest2)).map (fun p => (Json.obj p.1, p.2))
      else if c = '[' then
        match skip_ws rest with
        | [] => none
        | d :: rest2 =>
          if d = ']' then some (Json.arr [], rest2)
          else (parse_elems fuel (d :: rest2)).map (fun p => (Json.arr p.1, p.2))
      else if c = 't' then (parse_lit ['r', 'u', 'e'] rest).map (fun r => (Json.bool true, r))
      else if c = 'f' then (parse_lit ['a', 'l', 's', 'e'] rest).map (fun r => (Json.bool false, r))
      else if c = 'n' then (parse_lit ['u', 'l', 'l'] rest).map (fun r => (Json.null, r))
      else (parse_int (c :: rest)).map (fun p => (Json.num p.1, p.2))

/-- Nonempty `"key": value` member list of a JSON object, fuelled. -/
def parse_members : Nat → List Char → Option (List (String × Json) × List Char)
  | 0, _ => none
  | fuel + 1, cs0 =>
    match skip_ws cs0 with
    | [] => none
    | c :: rest =>
      if c = '"' then
        match parse_string_body rest with
        | none => none
        | some (k, rest2) =>
          match skip_ws rest2 with
          | [] => none
          | d :: rest3 =>
            if d = ':' then
              match parse_val fuel rest3 with
              | none => none
              | some (v, rest4) =>
                match skip_ws rest4 with
                | [] => none
                | e :: rest5 =>
                  if e = ',' then
                    (parse_members fuel rest5).map (fun p => ((k, v) :: p.1, p.2))
                  else if e = rbrace then some ([(k, v)], rest5)
                  else none
            else none
      else none

/-- Nonempty element list of a JSON array, fuelled. -/
def parse_elems : Nat → List Char → Option (List Json × List Char)
  | 0, _ => none
  | fuel + 1, cs0 =>
    match parse_val fuel cs0 with
    | none => none
    | some (v, rest) =>
      match skip_ws rest with
      | [] => none
      | e :: rest2 =>
        if e = ',' then (parse_elems fuel rest2).map (fun p => (v :: p.1, p.2))
        else if e = ']' then some ([v], rest2)
        else none

end

/-- Model of Python `json.loads`: a single JSON value surrounded by at most
whitespace; anything else raises `JSONDecodeError` (here `none`). -/
def json_loads (s : String) : Option Json :=
  match parse_val (s.length + 1) s.data with
  | some (j, rest) => if skip_ws rest = [] then some j else none
  | none => none

/-- llm.py lines 96-110, `extract_json_from_response`: search for the
greedy brace pattern; on a match run `json.loads` on the matched span,
mapping a decode error to `None`; with no match return `None`. -/
def extract_json_from_response (response_text : String) : Option Json :=
  match brace_search response_text.data with
  | some span => json_loads (String.mk span)
  | none => none

/-- Result of `analyze_text_with_groq`: the parsed analysis dictionary or
an error dictionary. -/
inductive AnalyzeResult where
  | ok : Json → AnalyzeResult
  | error : String → AnalyzeResult

/-- llm.py lines 147-161, the response-handling tail of
`analyze_text_with_groq` as a function of the LLM response content (the
prompt construction and network call are abstracted away; the
`hasattr(response, "content")` path is the one modelled). -/
def analyze_text_with_groq (response_text : String) : AnalyzeResult :=
  match extract_json_from_response response_text with
  | some j => AnalyzeResult.ok j
  | none => AnalyzeResult.error "Invalid JSON response from Groq"

/-- Depth-counting scanner: consume until the matching close of an already
open brace, accumulating the span in reverse. -/
def balanced_scan : Nat → List Char → List Char → Option (List Char)
  | _, _, [] => none
  | depth, acc, c :: rest =>
    if c = rbrace then
      if depth = 1 then some ((c :: acc).reverse)
      else balanced_scan (depth - 1) (c :: acc) rest
    else if c = lbrace then balanced_scan (depth + 1) (c :: acc) rest
    else balanced_scan depth (c :: acc) rest

/-- Modelled from the spec: the first balanced brace-delimited span of the
response, the extraction that the specification prescribes for the Analyze
stage. -/
def first_balanced_span (cs : List Char) : Option (List Char) :=
  match cs.dropWhile (fun c => !(c == lbrace)) with
  | [] => none
  | c :: rest => balanced_scan 1 [c] rest

/-! ## Helper lemmas -/

theorem string_data_append (s t : String) : (s ++ t).data = s.data ++ t.data := rfl

theorem string_mk_data (s : String) : String.mk s.data = s := rfl

theorem startswith_chars_self (l r : List Char) : startswith_chars l (l ++ r) = true := by
  induction l with
  | nil => rfl
  | cons c cs ih => simp [startswith_chars, ih]

theorem startswith_self (a b : String) : startswith a (a ++ b) = true := by
  unfold startswith
  rw [string_data_append]
  exact startswith_chars_self _ _

theorem is_already_processed_of_entry (base ts out : String) (log : List String)
    (h : log_entry base ts out ∈ log) : is_already_processed base log = true := by
  unfold is_already_processed
  rw [List.any_eq_true]
  refine ⟨log_entry base ts out, h, ?_⟩
  unfold startswith log_entry
  simp only [string_data_append, List.append_assoc]
  rw [← List.append_assoc base.data]
  exact startswith_chars_self _ _

theorem generate_embeddings_fst (encode : String → List Int) (st : EmbedState)
    (filename text ts oid : String) :
    (generate_embeddings encode st filename text ts oid).1 = true := by
  unfold generate_embeddings
  split <;> rfl

theorem processed_skip (encode : String → List Int) (oracle : Nat → Option String)
    (ts oid : String) (st : PipeState) (a : String)
    (h : is_already_processed (splitext a).1 st.translog = true) :
    process_single_file encode oracle ts oid st a = (false, st, []) := by
  unfold process_single_file
  simp [h]

theorem process_marks (encode : String → List Int) (oracle : Nat → Option String)
    (ts oid : String) (st : PipeState) (a : String)
    (h : is_already_processed (splitext a).1 st.translog = false) :
    ∃ out, (process_single_file encode oracle ts oid st a).2.1.translog
      = st.translog ++ [log_entry (splitext a).1 ts out] := by
  simp only [process_single_file, h, Bool.false_eq_true, if_false]
  split
  · split
    · split
      · exact ⟨"success", rfl⟩
      · exact ⟨"failed", rfl⟩
    · exact ⟨"failed", rfl⟩
  · exact ⟨"failed", rfl⟩

/-! ## Claims -/

/-- Claim C1: for every audio file whose base name already has a ledger
entry in the transcription log — with either outcome, `success` or
`failed` — `is_already_processed` reports it processed and
`process_single_file` returns `False` at once, invoking no stage at all
(the event trace is empty) and leaving the state untouched. -/
theorem c1_at_most_once_per_stage (encode : String → List Int)
    (oracle : Nat → Option String) (ts oid ts0 out : String)
    (st : PipeState) (audio_file : String)
    (hout : out = "success" ∨ out = "failed")
    (hline : log_entry (splitext audio_file).1 ts0 out ∈ st.translog) :
    is_already_processed (splitext audio_file).1 st.translog = true ∧
    process_single_file encode oracle ts oid st audio_file = (false, st, []) := by
  have h := is_already_processed_of_entry _ ts0 out _ hline
  exact ⟨h, processed_skip _ _ _ _ _ _ h⟩

/-- Witness for C1 at a concrete failed entry. -/
theorem c1_at_most_once_per_stage_witness :
    is_already_processed (splitext "a.mp3").1 ["a,t0,failed"] = true ∧
    process_single_file (fun _ => []) (fun _ => none) "t" "i"
        ⟨["a,t0,failed"], [], [], [], ["a.mp3"]⟩ "a.mp3" =
      (false, ⟨["a,t0,failed"], [], [], [], ["a.mp3"]⟩, []) :=
  c1_at_most_once_per_stage (fun _ => []) (fun _ => none) "t" "i" "t0" "failed"
    ⟨["a,t0,failed"], [], [], [], ["a.mp3"]⟩ "a.mp3" (Or.inr rfl) (by decide)

/-- Claim C10 (implicit): the ledger key is the filename with its extension
stripped, so after processing any file, a second file whose name has the
same base (for example `a.mp3` then `a.wav`) is skipped outright:
`process_single_file` returns `False` with no stage invoked. -/
theorem c10_extension_blind_ledger_key (encode encode2 : String → List Int)
    (oracle oracle2 : Nat → Option String) (ts oid ts2 oid2 : String)
    (st : PipeState) (a1 a2 : String)
    (hbase : (splitext a1).1 = (splitext a2).1) :
    process_single_file encode2 oracle2 ts2 oid2
        (process_single_file encode oracle ts oid st a1).2.1 a2 =
      (false, (process_single_file encode oracle ts oid st a1).2.1, []) := by
  by_cases h : is_already_processed (splitext a1).1 st.translog = true
  · rw [processed_skip encode oracle ts oid st a1 h]
    apply processed_skip
    rw [← hbase]
    exact h
  · have h' : is_already_processed (splitext a1).1 st.translog = false :=
      Bool.eq_false_iff.mpr h
    obtain ⟨out, hout⟩ := process_marks encode oracle ts oid st a1 h'
    apply processed_skip
    rw [← hbase, hout]
    apply is_already_processed_of_entry _ ts out
    simp

/-- Witness for C10 on `a.mp3` followed by `a.wav`. -/
theorem c10_extension_blind_ledger_key_witness :
    process_single_file (fun _ => []) (fun _ => none) "t2" "i2"
        (process_single_file (fun _ => []) (fun _ => none) "t1" "i1"
          ⟨[], [], [], [], ["a.mp3", "a.wav"]⟩ "a.mp3").2.1 "a.wav" =
      (false,
       (process_single_file (fun _ => []) (fun _ => none) "t1" "i1"
          ⟨[], [], [], [], ["a.mp3", "a.wav"]⟩ "a.mp3").2.1, []) :=
  c10_extension_blind_ledger_key (fun _ => []) (fun _ => []) (fun _ => none)
    (fun _ => none) "t1" "i1" "t2" "i2" ⟨[], [], [], [], ["a.mp3", "a.wav"]⟩
    "a.mp3" "a.wav" (by decide)

/-- Claim C6: for a file with no ledger entry whose transcription fails on
every attempt, `process_single_file` calls the transcription service
exactly `max_attempts = 2` times, then appends a terminal `failed` entry
to the transcription log and returns `False`, leaving everything else
unchanged. -/
theorem c6_retry_bound (encode : String → List Int) (oracle : Nat → Option String)
    (ts oid : String) (st : PipeState) (audio_file : String)
    (hnp : is_already_processed (splitext audio_file).1 st.translog = false)
    (hfail : ∀ n, oracle n = none) :
    process_single_file encode oracle ts oid st audio_file =
      (false,
       ⟨st.translog ++ [log_entry (splitext audio_file).1 ts "failed"],
        st.records, st.embeds, st.embedLog, st.dataFiles⟩,
       [Event.transcribeCall, Event.transcribeCall,
        Event.ledgerAppend (log_entry (splitext audio_file).1 ts "failed")]) := by
  have hrange : List.range max_attempts = [0, 1] := rfl
  have hloop : attempt_loop oracle [0, 1] = (none, 2) := by
    simp [attempt_loop, hfail, truthy]
  simp [process_single_file, hnp, hrange, hloop, truthy, List.replicate]

/-- Witness for C6 at a concrete always-failing oracle. -/
theorem c6_retry_bound_witness :
    process_single_file (fun _ => []) (fun _ => none) "ts" "id"
        ⟨[], [], [], [], ["a.mp3"]⟩ "a.mp3" =
      (false,
       ⟨[] ++ [log_entry (splitext "a.mp3").1 "ts" "failed"], [], [], [], ["a.mp3"]⟩,
       [Event.transcribeCall, Event.transcribeCall,
        Event.ledgerAppend (log_entry (splitext "a.mp3").1 "ts" "failed")]) :=
  c6_retry_bound (fun _ => []) (fun _ => none) "ts" "id"
    ⟨[], [], [], [], ["a.mp3"]⟩ "a.mp3" (by decide) (fun _ => rfl)

/-- Recogniser for ledger-append events. -/
def is_ledger_append : Event → Bool
  | Event.ledgerAppend _ => true
  | _ => false

/-- Whether some ledger append occurs strictly before the first call to
the Store stage (or anywhere, when no Store call occurs). -/
def ledger_before_store (evs : List Event) : Bool :=
  (evs.takeWhile (fun e => !(e == Event.storeCall))).any is_ledger_append

/-- Claim C2 is false as stated: here is a run in which the Transcribe
stage succeeds (the oracle returns text on the first call) and the Store
stage is attempted, yet no ledger append of any kind — in particular no
`success` entry — precedes the Store call. -/
theorem c2_checkpoint_counterexample :
    truthy ((fun _ => some "T") 0) = true ∧
    Event.storeCall ∈ (process_single_file (fun _ => [0]) (fun _ => some "T") "ts" "id"
        ⟨[], [], [], [], ["a.mp3"]⟩ "a.mp3").2.2 ∧
    ledger_before_store ((process_single_file (fun _ => [0]) (fun _ => some "T") "ts" "id"
        ⟨[], [], [], [], ["a.mp3"]⟩ "a.mp3").2.2) = false := by
  decide

/-- Claim C2 (amended): `process_single_file` writes no checkpoint between
Transcribe success and the Store attempt — when the first transcription
attempt succeeds for an unprocessed file, the event trace begins with the
transcription call immediately followed by the Store call, with no ledger
append in between; the single ledger entry for the file is written only
later.  Hence a run terminated after Transcribe succeeds but before Store
starts leaves the transcription log unchanged, and re-entry re-invokes
the transcription service instead of skipping to Store. -/
theorem c2_no_checkpoint_before_store (encode : String → List Int)
    (oracle : Nat → Option String) (ts oid : String)
    (st : PipeState) (audio_file : String)
    (hnp : is_already_processed (splitext audio_file).1 st.translog = false)
    (hok : truthy (oracle 0) = true) :
    ∃ rest, (process_single_file encode oracle ts oid st audio_file).2.2 =
      Event.transcribeCall :: Event.storeCall :: rest := by
  have hrange : List.range max_attempts = [0, 1] := rfl
  have hloop : attempt_loop oracle [0, 1] = (oracle 0, 1) := by
    simp [attempt_loop, hok]
  simp only [process_single_file, hnp, Bool.false_eq_true, if_false, hrange, hloop, hok,
    if_true, List.replicate, List.singleton_append]
  split
  · split
    · exact ⟨_, rfl⟩
    · exact ⟨_, rfl⟩
  · exact ⟨_, rfl⟩

/-- Witness for the amended C2 at a concrete run. -/
theorem c2_no_checkpoint_before_store_witness :
    ∃ rest, (process_single_file (fun _ => [0]) (fun _ => some "T") "ts" "id"
        ⟨[], [], [], [], ["a.mp3"]⟩ "a.mp3").2.2 =
      Event.transcribeCall :: Event.storeCall :: rest :=
  c2_no_checkpoint_before_store (fun _ => [0]) (fun _ => some "T") "ts" "id"
    ⟨[], [], [], [], ["a.mp3"]⟩ "a.mp3" (by decide) (by decide)

/-- Recogniser for file-removal events. -/
def is_file_remove : Event → Bool
  | Event.fileRemove _ => true
  | _ => false

/-- Whether some file removal occurs strictly before the first Analyze
launch (or anywhere, when no Analyze launch occurs). -/
def remove_before_analyze (evs : List Event) : Bool :=
  (evs.takeWhile (fun e => !(e == Event.analyzeCall))).any is_file_remove

/-- Claim C3 is false as stated: in a fully successful run of the per-file
step of `main`, the audio file is removed from the data folder before the
Analyze stage is even launched, not after it succeeds. -/
theorem c3_cleanup_counterexample :
    (main_step (fun _ => [0]) (fun _ => some "T") "ts" "id"
        ⟨[], [⟨"call1", "9876543210", "14:30", none⟩], [], [], ["call1.mp3"]⟩
        "call1.mp3").1 = true ∧
    remove_before_analyze ((main_step (fun _ => [0]) (fun _ => some "T") "ts" "id"
        ⟨[], [⟨"call1", "9876543210", "14:30", none⟩], [], [], ["call1.mp3"]⟩
        "call1.mp3").2.2) = true := by
  decide

/-- Claim C3 (amended): the audio file is deleted only when
`process_single_file` succeeds, that is, after Transcribe, Store and Embed
have all succeeded — which is before the Analyze stage runs; whenever any
of those stages fails (result `False`), the data folder is unchanged and
no removal event occurs, so the artifact remains on disk for a later
run. -/
theorem c3_cleanup_only_on_success (encode : String → List Int)
    (oracle : Nat → Option String) (ts oid : String)
    (st : PipeState) (audio_file : String) :
    ((process_single_file encode oracle ts oid st audio_file).1 = false →
      (process_single_file encode oracle ts oid st audio_file).2.1.dataFiles = st.dataFiles ∧
      ∀ q, Event.fileRemove q ∉ (process_single_file encode oracle ts oid st audio_file).2.2) ∧
    (∀ q, Event.fileRemove q ∈ (process_single_file encode oracle ts oid st audio_file).2.2 →
      (process_single_file encode oracle ts oid st audio_file).1 = true ∧
      Event.storeCall ∈ (process_single_file encode oracle ts oid st audio_file).2.2 ∧
      Event.embedCall ∈ (process_single_file encode oracle ts oid st audio_file).2.2) := by
  simp only [process_single_file]
  split
  · constructor
    · intro _
      exact ⟨rfl, by simp⟩
    · intro q hq
      simp at hq
  · split
    · split
      · split
        · constructor
          · intro hfalse
            simp at hfalse
          · intro q hq
            refine ⟨rfl, ?_, ?_⟩ <;> simp [List.mem_append]
        · constructor
          · intro _
            refine ⟨rfl, ?_⟩
            intro q hq
            simp [List.mem_append, List.mem_replicate] at hq
          · intro q hq
            exfalso
            simp [List.mem_append, List.mem_replicate] at hq
      · constructor
        · intro _
          refine ⟨rfl, ?_⟩
          intro q hq
          simp [List.mem_append, List.mem_replicate] at hq
        · intro q hq
          exfalso
          simp [List.mem_append, List.mem_replicate] at hq
    · constructor
      · intro _
        refine ⟨rfl, ?_⟩
        intro q hq
        simp [List.mem_append, List.mem_replicate] at hq
      · intro q hq
        exfalso
        simp [List.mem_append, List.mem_replicate] at hq

/-- Witness for the amended C3 at a concrete failing run. -/
theorem c3_cleanup_only_on_success_witness :
    ((process_single_file (fun _ => [0]) (fun _ => none) "ts" "id"
        ⟨[], [], [], [], ["a.mp3"]⟩ "a.mp3").1 = false →
      (process_single_file (fun _ => [0]) (fun _ => none) "ts" "id"
        ⟨[], [], [], [], ["a.mp3"]⟩ "a.mp3").2.1.dataFiles = ["a.mp3"] ∧
      ∀ q, Event.fileRemove q ∉ (process_single_file (fun _ => [0]) (fun _ => none) "ts" "id"
        ⟨[], [], [], [], ["a.mp3"]⟩ "a.mp3").2.2) ∧
    (∀ q, Event.fileRemove q ∈ (process_single_file (fun _ => [0]) (fun _ => none) "ts" "id"
        ⟨[], [], [], [], ["a.mp3"]⟩ "a.mp3").2.2 →
      (process_single_file (fun _ => [0]) (fun _ => none) "ts" "id"
        ⟨[], [], [], [], ["a.mp3"]⟩ "a.mp3").1 = true ∧
      Event.storeCall ∈ (process_single_file (fun _ => [0]) (fun _ => none) "ts" "id"
        ⟨[], [], [], [], ["a.mp3"]⟩ "a.mp3").2.2 ∧
      Event.embedCall ∈ (process_single_file (fun _ => [0]) (fun _ => none) "ts" "id"
        ⟨[], [], [], [], ["a.mp3"]⟩ "a.mp3").2.2) :=
  c3_cleanup_only_on_success (fun _ => [0]) (fun _ => none) "ts" "id"
    ⟨[], [], [], [], ["a.mp3"]⟩ "a.mp3"

theorem update_one_length (p : Record → Bool) (t : String) :
    ∀ l l2, update_one p t l = some l2 → l2.length = l.length := by
  intro l
  induction l with
  | nil => intro l2 h; cases h
  | cons r rs ih =>
    intro l2 h
    unfold update_one at h
    by_cases hp : p r
    · simp only [hp, if_true] at h
      cases h
      simp
    · simp only [hp, if_false, Bool.false_eq_true] at h
      rcases Option.map_eq_some'.mp h with ⟨l3, h3, rfl⟩
      simp [ih l3 h3]

theorem update_one_none (p : Record → Bool) (t : String) :
    ∀ l, (∀ r ∈ l, p r = false) → update_one p t l = none := by
  intro l
  induction l with
  | nil => intro _; rfl
  | cons r rs ih =>
    intro h
    unfold update_one
    rw [h r (by simp), ih (fun x hx => h x (by simp [hx]))]
    rfl

/-- Claim C7: `store_transcription` never inserts — for every input the
collection keeps its size (both update strategies run with upsert
disabled), and when neither strategy matches the function returns `False`
with the collection exactly unchanged. -/
theorem c7_store_never_inserts (coll : List Record) (filename text : String) :
    ((store_transcription coll filename text).2).length = coll.length ∧
    ((store_transcription coll filename text).1 = false →
      (store_transcription coll filename text).2 = coll) := by
  unfold store_transcription
  cases h1 : update_one (fun r => r.filename == filename) text coll with
  | some c2 =>
    simpa using update_one_length _ _ _ _ h1
  | none =>
    cases hph : extract_phone_number filename with
    | none => simp
    | some ph =>
      cases hmt : (extract_time_from_filename filename).bind convert_time_to_mongo_format with
      | none => simp
      | some t =>
        cases h2 : update_one (fun r => r.phone_number == ph && r.call_time == t) text coll with
        | some c2 =>
          simp only [h2]
          simpa using update_one_length _ _ _ _ h2
        | none =>
          simp only [h2]
          simp

/-- Witness for C7 at a concrete no-match input. -/
theorem c7_store_never_inserts_witness :
    ((store_transcription [⟨"g", "1", "2", none⟩] "f" "t").2).length =
      [(⟨"g", "1", "2", none⟩ : Record)].length ∧
    ((store_transcription [⟨"g", "1", "2", none⟩] "f" "t").1 = false →
      (store_transcription [⟨"g", "1", "2", none⟩] "f" "t").2 =
        [⟨"g", "1", "2", none⟩]) :=
  c7_store_never_inserts [⟨"g", "1", "2", none⟩] "f" "t"

/-- Claim C8: when an embedding document for a filename already exists,
`generate_embeddings` returns `True` leaving both the collection and the
embeddings log untouched — the check reads only the embedding collection,
not the transcription-log ledger; consequently two successive calls for
the same filename leave at most one embedding document for it. -/
theorem c8_embed_idempotent (encode : String → List Int) (st : EmbedState)
    (f text ts oid text2 ts2 oid2 : String) :
    ((∃ x ∈ st.embeds, x.filename = f) →
      generate_embeddings encode st f text ts oid = (true, st)) ∧
    (st.embeds.countP (fun x => x.filename == f) ≤ 1 →
      ((generate_embeddings encode
          (generate_embeddings encode st f text ts oid).2 f text2 ts2 oid2).2).embeds.countP
        (fun x => x.filename == f) ≤ 1) := by
  constructor
  · rintro ⟨x, hmem, hf⟩
    unfold generate_embeddings
    cases hfind : st.embeds.find? (fun y => y.filename == f) with
    | some _ => rfl
    | none =>
      exfalso
      have := List.find?_eq_none.mp hfind x hmem
      simp [hf] at this
  · intro hcount
    cases hfind : st.embeds.find? (fun y => y.filename == f) with
    | some x0 =>
      have h1 : generate_embeddings encode st f text ts oid = (true, st) := by
        unfold generate_embeddings
        rw [hfind]
      have h2 : generate_embeddings encode st f text2 ts2 oid2 = (true, st) := by
        unfold generate_embeddings
        rw [hfind]
      rw [h1, h2]
      exact hcount
    | none =>
      have hzero : st.embeds.countP (fun y => y.filename == f) = 0 := by
        rw [List.countP_eq_zero]
        intro y hy
        exact List.find?_eq_none.mp hfind y hy
      have h1 : generate_embeddings encode st f text ts oid
          = (true, ⟨st.embeds ++ [⟨f, encode text, ts⟩],
              st.embedLog ++ [f ++ "," ++ oid ++ "," ++ ts]⟩) := by
        unfold generate_embeddings
        rw [hfind]
      rw [h1]
      cases hfind2 : (st.embeds ++ [(⟨f, encode text, ts⟩ : EmbedDoc)]).find?
          (fun y => y.filename == f) with
      | some x1 =>
        have h2 : generate_embeddings encode
            (⟨st.embeds ++ [⟨f, encode text, ts⟩],
              st.embedLog ++ [f ++ "," ++ oid ++ "," ++ ts]⟩ : EmbedState)
            f text2 ts2 oid2
            = (true, ⟨st.embeds ++ [⟨f, encode text, ts⟩],
                st.embedLog ++ [f ++ "," ++ oid ++ "," ++ ts]⟩) := by
          unfold generate_embeddings
          simp only
          rw [hfind2]
        rw [h2]
        simp [List.countP_append, hzero, List.countP_cons]
      | none =>
        exfalso
        have := List.find?_eq_none.mp hfind2 ⟨f, encode text, ts⟩ (by simp)
        simp at this

/-- Witness for C8 at a concrete one-document state. -/
theorem c8_embed_idempotent_witness :
    ((∃ x ∈ [(⟨"f", [0], "d"⟩ : EmbedDoc)], x.filename = "f") →
      generate_embeddings (fun _ => [0]) ⟨[⟨"f", [0], "d"⟩], []⟩ "f" "t" "ts" "id" =
        (true, ⟨[⟨"f", [0], "d"⟩], []⟩)) ∧
    (([(⟨"f", [0], "d"⟩ : EmbedDoc)]).countP (fun x => x.filename == "f") ≤ 1 →
      ((generate_embeddings (fun _ => [0])
          (generate_embeddings (fun _ => [0]) ⟨[⟨"f", [0], "d"⟩], []⟩
            "f" "t" "ts" "id").2 "f" "t2" "ts2" "id2").2).embeds.countP
        (fun x => x.filename == "f") ≤ 1) :=
  c8_embed_idempotent (fun _ => [0]) ⟨[⟨"f", [0], "d"⟩], []⟩ "f" "t" "ts" "id" "t2" "ts2" "id2"

theorem brace_search_no_close (cs : List Char) :
    contains_char rbrace cs = false → brace_search cs = none := by
  induction cs with
  | nil => intro _; rfl
  | cons c rest ih =>
    intro h
    have hc : (c == rbrace) = false := by
      cases hcc : (c == rbrace) with
      | false => rfl
      | true => simp [contains_char, hcc] at h
    have hrest : contains_char rbrace rest = false := by
      simpa [contains_char, hc] using h
    simp only [brace_search, brace_match_at]
    by_cases hcl : c = lbrace
    · simp [hcl, hrest, ih hrest]
    · simp [hcl, ih hrest]

theorem brace_search_eq_fl (cs : List Char) : brace_search cs = brace_span_fl cs := by
  induction cs with
  | nil => rfl
  | cons c rest ih =>
    by_cases hc : c = lbrace
    · subst hc
      by_cases hr : contains_char rbrace rest = true
      · simp [brace_search, brace_match_at, brace_span_fl, List.dropWhile_cons, hr]
      · have hr' : contains_char rbrace rest = false := Bool.eq_false_iff.mpr hr
        simp [brace_search, brace_match_at, brace_span_fl, List.dropWhile_cons, hr',
          brace_search_no_close rest hr']
    · have hcb : (c == lbrace) = false := by simp [hc]
      unfold brace_span_fl at ih
      simp [brace_search, brace_match_at, brace_span_fl, List.dropWhile_cons, hc, hcb, ih]

/-- Claim C9 is false as stated: on a response holding two JSON objects,
the first balanced brace span is valid JSON (so the claimed behaviour
would return its dictionary), yet `extract_json_from_response` returns
`None`, because the greedy pattern grabs from the first opening brace to
the last closing brace and that span fails to parse. -/
theorem c9_first_balanced_counterexample :
    (first_balanced_span ("\x7b\"a\": 1\x7d x \x7b\"b\": 2\x7d").data).map String.mk
        = some "\x7b\"a\": 1\x7d" ∧
    (json_loads "\x7b\"a\": 1\x7d").isSome = true ∧
    (extract_json_from_response "\x7b\"a\": 1\x7d x \x7b\"b\": 2\x7d").isNone = true := by
  decide

/-- Claim C9 (amended): `extract_json_from_response` extracts the span
running from the first opening brace (provided some closing brace follows
it) to the last closing brace of the response — not the first balanced
span — and parses that with `json.loads`; when no such span exists, or
the span is not valid JSON, it returns `None`, which
`analyze_text_with_groq` surfaces as an error result rather than coercing
the content. -/
theorem c9_greedy_span_extraction (response_text : String) :
    extract_json_from_response response_text
      = ((brace_span_fl response_text.data).map String.mk).bind json_loads ∧
    (extract_json_from_response response_text = none →
      analyze_text_with_groq response_text
        = AnalyzeResult.error "Invalid JSON response from Groq") := by
  constructor
  · unfold extract_json_from_response
    rw [brace_search_eq_fl]
    cases brace_span_fl response_text.data <;> simp
  · intro h
    unfold analyze_text_with_groq
    rw [h]

/-- Witness for the amended C9 at a concrete json-free response. -/
theorem c9_greedy_span_extraction_witness :
    (extract_json_from_response "no json here"
      = ((brace_span_fl ("no json here").data).map String.mk).bind json_loads) ∧
    (extract_json_from_response "no json here" = none →
      analyze_text_with_groq "no json here"
        = AnalyzeResult.error "Invalid JSON response from Groq") :=
  c9_greedy_span_extraction "no json here"

theorem update_one_hits (p : Record → Bool) (t : String)
    (hstable : ∀ fn ph ct tr s, p ⟨fn, ph, ct, s⟩ = p ⟨fn, ph, ct, tr⟩) :
    ∀ l, (∃ r ∈ l, p r = true) →
      ∃ l2, update_one p t l = some l2 ∧
        ∃ r2 ∈ l2, p r2 = true ∧ r2.transcription = some t := by
  intro l
  induction l with
  | nil =>
    rintro ⟨r, hmem, _⟩
    cases hmem
  | cons a as ih =>
    rintro ⟨r, hmem, hp⟩
    by_cases hpa : p a = true
    · refine ⟨⟨a.filename, a.phone_number, a.call_time, some t⟩ :: as, by simp [update_one, hpa], ?_⟩
      refine ⟨⟨a.filename, a.phone_number, a.call_time, some t⟩, by simp, ?_, rfl⟩
      have hs := hstable a.filename a.phone_number a.call_time a.transcription (some t)
      rw [hs]
      exact hpa
    · have hras : r ∈ as := by
        cases hmem with
        | head => exact absurd hp hpa
        | tail _ h => exact h
      obtain ⟨l3, h3, r2, hr2mem, hr2p, hr2t⟩ := ih ⟨r, hras, hp⟩
      exact ⟨a :: l3, by simp [update_one, hpa, h3], r2, by simp [hr2mem], hr2p, hr2t⟩

/-- Claim C4: on the filename `abc_9876543210_2024-5-1-14-30-5_rest.mp3`
the Matcher extracts phone `9876543210` and time `14:30`; when no record
matches by filename, `store_transcription`'s fallback updates a record
whose `phone_number` and `call_time` equal that pair when one exists
(setting its transcription), and returns `False` with the collection
unchanged when no record matches by filename or by that pair. -/
theorem c4_matcher_fallback_example (coll : List Record) (text : String) :
    extract_phone_number "abc_9876543210_2024-5-1-14-30-5_rest.mp3" = some "9876543210" ∧
    extract_time_from_filename "abc_9876543210_2024-5-1-14-30-5_rest.mp3" = some "14:30" ∧
    ((∀ r ∈ coll, r.filename ≠ "abc_9876543210_2024-5-1-14-30-5_rest.mp3") →
      ((∃ r ∈ coll, r.phone_number = "9876543210" ∧ r.call_time = "14:30") →
        (store_transcription coll "abc_9876543210_2024-5-1-14-30-5_rest.mp3" text).1 = true ∧
        ∃ r2 ∈ (store_transcription coll "abc_9876543210_2024-5-1-14-30-5_rest.mp3" text).2,
          r2.phone_number = "9876543210" ∧ r2.call_time = "14:30" ∧
          r2.transcription = some text) ∧
      ((∀ r ∈ coll, ¬(r.phone_number = "9876543210" ∧ r.call_time = "14:30")) →
        store_transcription coll "abc_9876543210_2024-5-1-14-30-5_rest.mp3" text
          = (false, coll))) := by
  refine ⟨by decide, by decide, ?_⟩
  intro hfn
  have h1 : update_one (fun r => r.filename == "abc_9876543210_2024-5-1-14-30-5_rest.mp3")
      text coll = none := by
    apply update_one_none
    intro r hr
    simp [hfn r hr]
  have hph : extract_phone_number "abc_9876543210_2024-5-1-14-30-5_rest.mp3"
      = some "9876543210" := by decide
  have hmt : (extract_time_from_filename
        "abc_9876543210_2024-5-1-14-30-5_rest.mp3").bind convert_time_to_mongo_format
      = some "14:30" := by decide
  constructor
  · rintro ⟨r, hmem, hrp, hrc⟩
    have hx : ∃ x ∈ coll,
        (fun x => x.phone_number == "9876543210" && x.call_time == "14:30") x = true :=
      ⟨r, hmem, by simp [hrp, hrc]⟩
    obtain ⟨l2, h2, r2, hr2mem, hr2p, hr2t⟩ :=
      update_one_hits (fun x => x.phone_number == "9876543210" && x.call_time == "14:30")
        text (fun fn ph ct tr s => rfl) coll hx
    simp only [store_transcription, h1, hph, hmt, h2]
    refine ⟨by trivial, r2, hr2mem, ?_, ?_, hr2t⟩
    · have := hr2p
      simp only [Bool.and_eq_true, beq_iff_eq] at this
      exact this.1
    · have := hr2p
      simp only [Bool.and_eq_true, beq_iff_eq] at this
      exact this.2
  · intro hnone
    have h2 : update_one (fun r => r.phone_number == "9876543210" && r.call_time == "14:30")
        text coll = none := by
      apply update_one_none
      intro r hr
      have hno := hnone r hr
      by_cases hp : r.phone_number = "9876543210"
      · by_cases hc : r.call_time = "14:30"
        · exact absurd ⟨hp, hc⟩ hno
        · simp [hc]
      · simp [hp]
    simp only [store_transcription, h1, hph, hmt, h2]

/-- Witness for C4 at a concrete one-record collection. -/
theorem c4_matcher_fallback_example_witness :
    extract_phone_number "abc_9876543210_2024-5-1-14-30-5_rest.mp3" = some "9876543210" ∧
    extract_time_from_filename "abc_9876543210_2024-5-1-14-30-5_rest.mp3" = some "14:30" ∧
    ((∀ r ∈ [(⟨"x", "9876543210", "14:30", none⟩ : Record)],
        r.filename ≠ "abc_9876543210_2024-5-1-14-30-5_rest.mp3") →
      ((∃ r ∈ [(⟨"x", "9876543210", "14:30", none⟩ : Record)],
          r.phone_number = "9876543210" ∧ r.call_time = "14:30") →
        (store_transcription [⟨"x", "9876543210", "14:30", none⟩]
            "abc_9876543210_2024-5-1-14-30-5_rest.mp3" "T").1 = true ∧
        ∃ r2 ∈ (store_transcription [⟨"x", "9876543210", "14:30", none⟩]
            "abc_9876543210_2024-5-1-14-30-5_rest.mp3" "T").2,
          r2.phone_number = "9876543210" ∧ r2.call_time = "14:30" ∧
          r2.transcription = some "T") ∧
      ((∀ r ∈ [(⟨"x", "9876543210", "14:30", none⟩ : Record)],
          ¬(r.phone_number = "9876543210" ∧ r.call_time = "14:30")) →
        store_transcription [⟨"x", "9876543210", "14:30", none⟩]
            "abc_9876543210_2024-5-1-14-30-5_rest.mp3" "T"
          = (false, [⟨"x", "9876543210", "14:30", none⟩]))) :=
  c4_matcher_fallback_example [⟨"x", "9876543210", "14:30", none⟩] "T"

theorem takeDigits_exact (ds rest : List Char) (hd : ∀ c ∈ ds, isDig c = true) :
    takeDigits ds.length (ds ++ rest) = some (ds, rest) := by
  induction ds with
  | nil => rfl
  | cons c cs ih =>
    simp [takeDigits, hd c (by simp), ih (fun x hx => hd x (by simp [hx]))]

theorem d12_sep {α : Type} (g rest : List Char) (sep : Char)
    (k : List Char → List Char → Option α) (v : α)
    (h1 : 1 ≤ g.length) (h2 : g.length ≤ 2)
    (hd : ∀ c ∈ g, isDig c = true) (hsep : isDig sep = false)
    (hk : k g (sep :: rest) = some v) :
    d12 (g ++ sep :: rest) k = some v := by
  cases g with
  | nil => simp at h1
  | cons a t =>
    cases t with
    | nil =>
      have ha : isDig a = true := hd a (by simp)
      have ht2 : takeDigits 2 ([a] ++ sep :: rest) = none := by
        simp [takeDigits, ha, hsep]
      have ht1 : takeDigits 1 ([a] ++ sep :: rest) = some ([a], sep :: rest) := by
        simp [takeDigits, ha]
      unfold d12
      simp only [ht2, ht1]
      exact hk
    | cons b t2 =>
      cases t2 with
      | nil =>
        have ha : isDig a = true := hd a (by simp)
        have hb : isDig b = true := hd b (by simp)
        have ht2 : takeDigits 2 ([a, b] ++ sep :: rest) = some ([a, b], sep :: rest) := by
          simp [takeDigits, ha, hb]
        unfold d12
        simp only [ht2, hk]
      | cons c t3 =>
        simp only [List.length_cons] at h2
        omega

theorem time_match_at_exact (y mo dd hh mi sec suf : List Char)
    (hy4 : y.length = 4) (hyd : ∀ c ∈ y, isDig c = true)
    (hmo1 : 1 ≤ mo.length) (hmo2 : mo.length ≤ 2) (hmod : ∀ c ∈ mo, isDig c = true)
    (hd1 : 1 ≤ dd.length) (hd2 : dd.length ≤ 2) (hddg : ∀ c ∈ dd, isDig c = true)
    (hh1 : 1 ≤ hh.length) (hh2 : hh.length ≤ 2) (hhd : ∀ c ∈ hh, isDig c = true)
    (hmi1 : 1 ≤ mi.length) (hmi2 : mi.length ≤ 2) (hmid : ∀ c ∈ mi, isDig c = true)
    (hs1 : 1 ≤ sec.length) (hs2 : sec.length ≤ 2) (hsd : ∀ c ∈ sec, isDig c = true) :
    time_match_at ('_' :: (y ++ '-' :: (mo ++ '-' :: (dd ++ '-' :: (hh ++ '-' :: (mi ++ '-' :: (sec ++ '_' :: suf)))))))
      = some (hh, mi) := by
  have h4 : takeDigits 4 (y ++ '-' :: (mo ++ '-' :: (dd ++ '-' :: (hh ++ '-' :: (mi ++ '-' :: (sec ++ '_' :: suf))))))
      = some (y, '-' :: (mo ++ '-' :: (dd ++ '-' :: (hh ++ '-' :: (mi ++ '-' :: (sec ++ '_' :: suf)))))) := by
    rw [← hy4]
    exact takeDigits_exact y _ hyd
  have hmc : ∀ X : List Char, matchChar '-' ('-' :: X) = some X := by
    intro X
    simp [matchChar]
  have hmu : ∀ X : List Char, matchChar '_' ('_' :: X) = some X := by
    intro X
    simp [matchChar]
  simp only [time_match_at, beq_self_eq_true, if_true, h4, hmc]
  apply d12_sep _ _ _ _ _ hmo1 hmo2 hmod (by decide)
  simp only [hmc]
  apply d12_sep _ _ _ _ _ hd1 hd2 hddg (by decide)
  simp only [hmc]
  apply d12_sep _ _ _ _ _ hh1 hh2 hhd (by decide)
  simp only [hmc]
  apply d12_sep _ _ _ _ _ hmi1 hmi2 hmid (by decide)
  simp only [hmc]
  apply d12_sep _ _ _ _ _ hs1 hs2 hsd (by decide)
  simp only [hmu]

theorem time_scan_skip (pre rest : List Char) (hp : ∀ c ∈ pre, c ≠ '_') :
    time_scan (pre ++ rest) = time_scan rest := by
  induction pre with
  | nil => rfl
  | cons c cs ih =>
    have hc : (c == '_') = false := by
      simpa using hp c (by simp)
    simp only [List.cons_append, time_scan, time_match_at, hc, Bool.false_eq_true, if_false]
    exact ih (fun x hx => hp x (by simp [hx]))

/-- Claim C5: for every filename consisting of a prefix free of
underscores followed by an embedded `_YYYY-M-D-H-M-S_` date-time segment
(year of four digits, the other components of one or two digits),
`extract_time_from_filename` returns the hour parsed as an integer
(leading zeros dropped), a colon, and the minute digits exactly as they
appear — no zero-padding and no AM/PM adjustment; for hour digits `05`
and minute digit `5` the result is the string `5:5`. -/
theorem c5_time_normalization_shape (p y mo dd hh mi sec suf : String)
    (hp : ∀ c ∈ p.data, c ≠ '_')
    (hy4 : y.data.length = 4) (hyd : ∀ c ∈ y.data, isDig c = true)
    (hmo1 : 1 ≤ mo.data.length) (hmo2 : mo.data.length ≤ 2)
    (hmod : ∀ c ∈ mo.data, isDig c = true)
    (hd1 : 1 ≤ dd.data.length) (hd2 : dd.data.length ≤ 2)
    (hddg : ∀ c ∈ dd.data, isDig c = true)
    (hh1 : 1 ≤ hh.data.length) (hh2 : hh.data.length ≤ 2)
    (hhd : ∀ c ∈ hh.data, isDig c = true)
    (hmi1 : 1 ≤ mi.data.length) (hmi2 : mi.data.length ≤ 2)
    (hmid : ∀ c ∈ mi.data, isDig c = true)
    (hs1 : 1 ≤ sec.data.length) (hs2 : sec.data.length ≤ 2)
    (hsd : ∀ c ∈ sec.data, isDig c = true) :
    extract_time_from_filename
        (p ++ "_" ++ y ++ "-" ++ mo ++ "-" ++ dd ++ "-" ++ hh ++ "-" ++ mi ++ "-" ++ sec ++ "_" ++ suf)
      = some (toString (int_of_digits hh.data) ++ ":" ++ mi) := by
  have e1 : ("_" : String).data = ['_'] := rfl
  have e2 : ("-" : String).data = ['-'] := rfl
  have hdata : (p ++ "_" ++ y ++ "-" ++ mo ++ "-" ++ dd ++ "-" ++ hh ++ "-" ++ mi ++ "-" ++ sec ++ "_" ++ suf).data
      = p.data ++ '_' :: (y.data ++ '-' :: (mo.data ++ '-' :: (dd.data ++ '-' :: (hh.data ++ '-' :: (mi.data ++ '-' :: (sec.data ++ '_' :: suf.data)))))) := by
    simp [string_data_append, e1, e2, List.append_assoc, List.singleton_append]
  unfold extract_time_from_filename
  rw [hdata]
  have hbody : time_scan (p.data ++ '_' :: (y.data ++ '-' :: (mo.data ++ '-' :: (dd.data ++ '-' :: (hh.data ++ '-' :: (mi.data ++ '-' :: (sec.data ++ '_' :: suf.data)))))))
      = time_scan ('_' :: (y.data ++ '-' :: (mo.data ++ '-' :: (dd.data ++ '-' :: (hh.data ++ '-' :: (mi.data ++ '-' :: (sec.data ++ '_' :: suf.data))))))) :=
    time_scan_skip p.data _ hp
  rw [hbody]
  have hm := time_match_at_exact y.data mo.data dd.data hh.data mi.data sec.data suf.data
    hy4 hyd hmo1 hmo2 hmod hd1 hd2 hddg hh1 hh2 hhd hmi1 hmi2 hmid hs1 hs2 hsd
  simp only [time_scan, hm]

/-- Witness for C5 with hour digits `05` and minute digit `5`. -/
theorem c5_time_normalization_shape_witness :
    extract_time_from_filename
        ("abc" ++ "_" ++ "2024" ++ "-" ++ "7" ++ "-" ++ "1" ++ "-" ++ "05" ++ "-" ++ "5" ++ "-" ++ "59" ++ "_" ++ "x.mp3")
      = some (toString (int_of_digits ("05").data) ++ ":" ++ "5") :=
  c5_time_normalization_shape "abc" "2024" "7" "1" "05" "5" "59" "x.mp3"
    (by decide) (by decide) (by decide) (by decide) (by decide) (by decide)
    (by decide) (by decide) (by decide) (by decide) (by decide) (by decide)
    (by decide) (by decide) (by decide) (by decide) (by decide) (by decide)
